import Mathlib

/-!
Verification development for the Apex Rider core simulation.

The TypeScript core (track generator, vehicle simulator, apex scoring
engine, perspective projector) is embedded shallowly over exact rational
arithmetic `ℚ`.  JavaScript numbers are idealised as rationals; every
random draw performed by the generator (`Math.random()` outcomes) is made
an explicit input of type `Draws`, and the per-frame time delta and the
global slow-motion time scale are explicit arguments of the tick function.
-/

namespace ApexRider

/-! ## Game configuration constants (constants.ts, GAME_CONFIG) -/

def BASE_SPEED : ℚ := 1500
def MAX_SPEED : ℚ := 9500
def ACCELERATION : ℚ := 2500
def ROAD_WIDTH : ℚ := 2200
def STEER_SENSITIVITY : ℚ := 5
def CURVE_SENSITIVITY : ℚ := 7/10
def LEAN_SMOOTHING : ℚ := 12
def SEGMENT_LENGTH : ℚ := 100
def VISIBLE_SEGMENTS : ℚ := 200
def CAMERA_HEIGHT : ℚ := 1500
def CAMERA_DEPTH : ℚ := 4/5
def OFF_ROAD_LIMIT : ℚ := 1
def COLLISION_THRESHOLD : ℚ := 7/4
def OFF_ROAD_FRICTION : ℚ := 6000
def PERFECT_WINDOW : ℚ := 800

/-! ## Utilities (utils/gameUtils.ts) -/

/-- `lerp(start, end, t) = start*(1-t) + end*t`. -/
def lerp (start e t : ℚ) : ℚ := start * (1 - t) + e * t

/-- `clamp(val, min, max) = Math.max(min, Math.min(max, val))`. -/
def clamp (val lo hi : ℚ) : ℚ := max lo (min hi val)

/-- JavaScript `Math.sign`. -/
def mathSign (x : ℚ) : ℚ := if 0 < x then 1 else if x < 0 then -1 else 0

/-! ## Data model (types.ts) -/

/-- Timing rating for apex hits. -/
inductive TimingRating where
  | PERFECT
  | GOOD
  | OK
  | MISS
deriving DecidableEq, Repr

/-- A road segment: position along the track and signed curvature; `apexColor`
models the optional `color` highlight tag (`COLOR_APEX_EDGE` vs `undefined`). -/
structure RoadSegment where
  z : ℚ
  curve : ℚ
  apexColor : Bool
deriving DecidableEq, Repr

/-- An apex challenge point. -/
structure ApexPoint where
  z : ℚ
  direction : ℚ
  hit : Bool
  scored : Bool
deriving DecidableEq, Repr

/-- The world state owned by the track generator (`roadRef`). -/
structure RoadState where
  segments : List RoadSegment
  apexPoints : List ApexPoint
deriving DecidableEq, Repr

/-- A trail point (TRON trail history). -/
structure TrailPoint where
  x : ℚ
  z : ℚ
  alpha : ℚ
deriving DecidableEq, Repr

/-- Crash-fall animation state. -/
structure CrashState where
  active : Bool
  x : ℚ
  y : ℚ
  vx : ℚ
  vy : ℚ
  rot : ℚ
  vRot : ℚ
deriving DecidableEq, Repr

/-- The vehicle state (`playerRef`).  The source fields `lean` and
`targetLean` are named `leanVal` and `targetLeanVal` here; `frameId` models
the frame counter `frameIdRef` used for trail sampling. -/
structure Player where
  x : ℚ
  leanVal : ℚ
  targetLeanVal : ℚ
  speed : ℚ
  distanceTraveled : ℚ
  engineVibration : ℚ
  offRoad : Bool
  crash : CrashState
  score : ℕ
  trail : List TrailPoint
  frameId : ℕ
deriving DecidableEq, Repr

/-- Steering intents for one tick (`inputRef`). -/
structure Inputs where
  left : Bool
  right : Bool
deriving DecidableEq, Repr

/-- The game phase enumeration. -/
inductive GameState where
  | MENU
  | PLAYING
  | GAME_OVER
deriving DecidableEq, Repr

/-- The random draws consumed by one `generateRoad` call: the pattern
selector `Math.random()`, the straight-pattern hold length
`randomRange(10, 30)`, the curve intensity draw of the chosen pattern, and
the direction draw `Math.random() > 0.5`. -/
structure Draws where
  pattern : ℚ
  holdRand : ℚ
  intensity : ℚ
  dirPos : Bool
deriving DecidableEq, Repr

/-! ## Track generation (GameCanvas, `addTrackSegment` / `generateRoad`)

A JavaScript loop `for (let i = 0; i < b; i++)` with a (possibly
fractional) real bound `b` executes `⌈b⌉₊` iterations, which is how the
three sub-block loops are rendered below. -/

/-- `const startZ = segments.length > 0 ? segments[segments.length - 1].z : 0`. -/
def startZOf (road : RoadState) : ℚ :=
  match road.segments.getLast? with
  | some s => s.z
  | none => 0

/-- `addTrackSegment(enter, hold, exit, curve)`: registers an apex for sharp
blocks and appends the enter / hold / exit segment runs. -/
def addTrackSegment (road : RoadState) (enter hold exitLen curve : ℚ) : RoadState :=
  let startZ : ℚ := startZOf road
  let apexPoints :=
    if 2 < |curve| then
      road.apexPoints ++
        [⟨startZ + (enter + hold / 2) * SEGMENT_LENGTH, mathSign curve, false, false⟩]
    else road.apexPoints
  let enterSegs : List RoadSegment :=
    (List.range ⌈enter⌉₊).map fun (i : ℕ) =>
      ⟨startZ + ((i : ℚ) + 1) * SEGMENT_LENGTH, lerp 0 curve ((i : ℚ) / enter), false⟩
  let holdSegs : List RoadSegment :=
    (List.range ⌈hold⌉₊).map fun (i : ℕ) =>
      ⟨startZ + (enter + (i : ℚ) + 1) * SEGMENT_LENGTH, curve,
        decide (hold / 2 - 2 < (i : ℚ) ∧ (i : ℚ) < hold / 2 + 2)⟩
  let exitSegs : List RoadSegment :=
    (List.range ⌈exitLen⌉₊).map fun (i : ℕ) =>
      ⟨startZ + (enter + hold + (i : ℚ) + 1) * SEGMENT_LENGTH, lerp curve 0 ((i : ℚ) / exitLen), false⟩
  ⟨road.segments ++ enterSegs ++ holdSegs ++ exitSegs, apexPoints⟩

/-- The pattern dispatch of `generateRoad` (lines choosing straight, medium
curve, chicane or long hard turn from the random draws). -/
def patternBlocks (road : RoadState) (d : Draws) : RoadState :=
  let dir : ℚ := if d.dirPos then 1 else -1
  if d.pattern < 1/5 then
    addTrackSegment road 0 d.holdRand 0 0
  else if d.pattern < 1/2 then
    addTrackSegment road 20 20 20 (d.intensity * dir)
  else if d.pattern < 4/5 then
    addTrackSegment (addTrackSegment road 15 10 15 (d.intensity * dir)) 15 10 15
      (-(d.intensity * dir))
  else
    addTrackSegment road 30 40 30 (d.intensity * dir)

/-- The generation phase of `generateRoad(playerZ)`: seed an initial straight
on an empty track, then extend by one pattern block if the last stored
segment is closer than `VISIBLE_SEGMENTS * SEGMENT_LENGTH` ahead of the
reference position. -/
def generateRoadPre (road : RoadState) (d : Draws) (playerZ : ℚ) : RoadState :=
  let road := if road.segments = [] then addTrackSegment road 0 50 0 0 else road
  match road.segments.getLast? with
  | some lastSeg =>
      if lastSeg.z < playerZ + VISIBLE_SEGMENTS * SEGMENT_LENGTH then patternBlocks road d
      else road
  | none => road

/-- `generateRoad(playerZ)`: the generation phase followed by the cleanup
phase, which prunes segments behind `playerZ - 2000` (the front `shift`
loop) and apex points at or behind `playerZ - 1000` (filter). -/
def generateRoad (road : RoadState) (d : Draws) (playerZ : ℚ) : RoadState :=
  let road := generateRoadPre road d playerZ
  ⟨road.segments.dropWhile (fun s => decide (s.z < playerZ - 2000)),
   road.apexPoints.filter (fun ap => decide (playerZ - 1000 < ap.z))⟩

/-- Iterated `generateRoad` calls (one per simulated tick), each with its
own random draws and reference position. -/
def applyGenCalls (calls : List (Draws × ℚ)) (road : RoadState) : RoadState :=
  calls.foldl (fun st c => generateRoad st c.1 c.2) road

/-! ## Vehicle simulator and apex scoring (GameCanvas, `update`) -/

/-- Controls: right intent wins over left (`update` lines 344-350). -/
def targetLeanOf (inp : Inputs) : ℚ :=
  if inp.right then 1 else if inp.left then -1 else 0

/-- Acceleration while not game-over: `speed = min(speed + ACCELERATION*delta, MAX_SPEED)`. -/
def accelSpeed (speed delta : ℚ) : ℚ := min (speed + ACCELERATION * delta) MAX_SPEED

/-- Off-road friction: `speed -= OFF_ROAD_FRICTION*delta; speed = max(speed, 2000)`. -/
def frictionSpeed (speed delta : ℚ) : ℚ := max (speed - OFF_ROAD_FRICTION * delta) 2000

/-- `segments.find(s => s.z >= distance) || segments[0]`, taking the curve
of the result (0 when the window is empty). -/
def currentCurve (segs : List RoadSegment) (dist : ℚ) : ℚ :=
  match (segs.find? (fun s => decide (dist ≤ s.z))).orElse (fun _ => segs.head?) with
  | some s => s.curve
  | none => 0

/-- Window predicate of the apex search: un-hit and within `PERFECT_WINDOW`
of the traveled distance. -/
def apexWindow (dist : ℚ) (ap : ApexPoint) : Bool :=
  !ap.hit && decide (|ap.z - dist| < PERFECT_WINDOW)

/-- Apex detection (`update` lines 420-430): `Array.find` locates the first
stored un-hit apex inside the window; if the lean matches its direction with
magnitude above 0.5 that apex is marked hit, a PERFECT/GOOD rating is
emitted, and the speed boost is granted. -/
def apexHitStep (dist leanV speed : ℚ) :
    List ApexPoint → List ApexPoint × ℚ × Option TimingRating
  | [] => ([], speed, none)
  | ap :: rest =>
    if apexWindow dist ap then
      if mathSign leanV = mathSign ap.direction ∧ 1/2 < |leanV| then
        ({ ap with hit := true } :: rest, min (speed + 300) MAX_SPEED,
          some (if 4/5 < |leanV| then TimingRating.PERFECT else TimingRating.GOOD))
      else (ap :: rest, speed, none)
    else
      let r := apexHitStep dist leanV speed rest
      (ap :: r.1, r.2)

/-- Score update (`update` lines 432-439): every un-scored apex already
passed by the traveled distance is marked scored; the second component is
the total score increment of the sweep. -/
def scoreStep (dist : ℚ) : List ApexPoint → List ApexPoint × ℕ
  | [] => ([], 0)
  | ap :: rest =>
    let r := scoreStep dist rest
    if !ap.scored && decide (ap.z < dist) then
      ({ ap with scored := true } :: r.1, r.2 + 1)
    else (ap :: r.1, r.2)

/-- `handleCrash`: the crash-fall animation state created at the collision
transition, from the post-update position, lean and speed. -/
def handleCrashState (xNew leanNew speedNew : ℚ) : CrashState :=
  let flyDir : ℚ := if 0 < xNew then 1 else -1
  ⟨true, 0, 0, flyDir * (speedNew * (1/2)), -300, leanNew, flyDir * 15⟩

/-- One call of the main `update(dt, time)` loop body (GameCanvas lines
332-507), restricted to the simulation state (audio and cosmetic fx are
out of scope; the fx slow-motion factor enters as `timeScale`).  Returns
the new player state, the new road state, and whether the
Driving → Crashed transition (`handleCrash`) fired during the tick. -/
def update (gs : GameState) (p : Player) (r : RoadState) (inp : Inputs) (d : Draws)
    (dt timeScale : ℚ) : Player × RoadState × Bool :=
  let delta := dt * timeScale
  let targetLean := targetLeanOf inp
  let speed1 := if gs = GameState.GAME_OVER then lerp p.speed 0 (3 * dt)
    else accelSpeed p.speed delta
  let curveIntensity := currentCurve r.segments p.distanceTraveled
  let speedRatio := speed1 / MAX_SPEED
  let dx := delta * 2 * speedRatio
  if gs = GameState.PLAYING then
    let leanNew := lerp p.leanVal targetLean (LEAN_SMOOTHING * delta)
    let x1 := p.x + leanNew * dx * STEER_SENSITIVITY
    let x2 := x1 - curveIntensity * dx * CURVE_SENSITIVITY
    let x3 := if |curveIntensity| < 1/2 ∧ targetLean = 0 then lerp x2 0 (1 * delta) else x2
    let absX := |x3|
    let offRoad := decide (OFF_ROAD_LIMIT < absX)
    let offRoadDepth := (absX - OFF_ROAD_LIMIT) / (COLLISION_THRESHOLD - OFF_ROAD_LIMIT)
    let speed2 := if offRoad then frictionSpeed speed1 delta else speed1
    let vib := if offRoad then 10 + offRoadDepth * 20 else speed2 / MAX_SPEED * 3
    let trail1 := if p.frameId % 2 = 0 then p.trail ++ [⟨x3, p.distanceTraveled, 1⟩]
      else p.trail
    let trail2 := (trail1.map (fun tp => { tp with alpha := tp.alpha - 3/2 * delta })).filter
      (fun tp => decide (0 < tp.alpha))
    let ah := apexHitStep p.distanceTraveled leanNew speed2 r.apexPoints
    let sc := scoreStep p.distanceTraveled ah.1
    let speed3 := ah.2.1
    let scoreNew := p.score + sc.2
    let crashed := decide (COLLISION_THRESHOLD < absX)
    let crashNew := if crashed then handleCrashState x3 leanNew speed3 else p.crash
    let distNew := p.distanceTraveled + speed3 * delta
    let road1 := generateRoad ⟨r.segments, sc.1⟩ d distNew
    (⟨x3, leanNew, targetLean, speed3, distNew, vib, offRoad, crashNew, scoreNew, trail2,
       p.frameId + 1⟩,
     road1, crashed)
  else
    let crashNew :=
      if gs = GameState.GAME_OVER ∧ p.crash.active then
        { p.crash with
          x := p.crash.x + p.crash.vx * (3/1000) * dt
          y := p.crash.y + p.crash.vy * dt
          rot := p.crash.rot + p.crash.vRot * dt
          vy := p.crash.vy + 1500 * dt }
      else p.crash
    let distNew := p.distanceTraveled + speed1 * delta
    let road1 := generateRoad r d distNew
    (⟨p.x, p.leanVal, targetLean, speed1, distNew, p.engineVibration, p.offRoad, crashNew,
       p.score, p.trail, p.frameId + 1⟩,
     road1, false)

/-- The vehicle state installed at run (re)start (the `PLAYING` reset
effect); the frame counter `frameIdRef` is not reset and stays a parameter. -/
def initPlayer (fid : ℕ) : Player :=
  ⟨0, 0, 0, BASE_SPEED, 0, 0, false, ⟨false, 0, 0, 0, 0, 0, 0⟩, 0, [], fid⟩

/-! ## Projector (`project`) -/

/-- The projected point: rounded screen position, perspective scale and
rounded projected half-width. -/
structure Projected where
  screenX : ℤ
  screenY : ℤ
  scale : ℚ
  w : ℤ
deriving DecidableEq, Repr

/-- JavaScript `Math.round` on exact rationals. -/
def jsRound (q : ℚ) : ℤ := ⌊q + 1/2⌋

/-- `project`: camera-relative coordinates, depth clamp at 10 world units,
`scale = cameraDepth / safeZ`, viewport-centered rounded screen coordinates
(Y inverted) and projected road half-width. -/
def project (lineX lineY lineZ cameraX cameraY cameraZ cameraDepth width height roadWidth : ℚ) :
    Projected :=
  let cx := lineX - cameraX
  let cy := lineY - cameraY
  let cz := lineZ - cameraZ
  let safeZ := max 10 cz
  let scale := cameraDepth / safeZ
  ⟨jsRound (width / 2 + scale * cx * width / 2),
   jsRound (height / 2 - scale * cy * height / 2),
   scale,
   jsRound (scale * roadWidth * width / 2)⟩

/-! ## Specification-side predicates -/

/-- Adjacency relation of the contiguity invariant: the next stored segment
sits exactly `SEGMENT_LENGTH` further along the track. -/
def SegStep (a b : RoadSegment) : Prop := b.z = a.z + SEGMENT_LENGTH

/-- A contiguous segment list whose last entry (when one exists) sits at `z`. -/
def Ok (l : List RoadSegment) (z : ℚ) : Prop :=
  List.Chain' SegStep l ∧ ∀ s ∈ l.getLast?, s.z = z

/-! ## Track generation lemmas -/

lemma segStep_iff {a b : RoadSegment} : SegStep a b ↔ b.z = a.z + 100 := by
  simp [SegStep, SEGMENT_LENGTH]

lemma chain'_rangeMap {z0 : ℚ} {n : ℕ} {g : ℕ → RoadSegment}
    (hg : ∀ i, i < n → (g i).z = z0 + ((i : ℚ) + 1) * SEGMENT_LENGTH) :
    List.Chain' SegStep ((List.range n).map g) := by
  rw [List.chain'_map]
  cases n with
  | zero => simp
  | succ m =>
    rw [List.chain'_range_succ]
    intro k hk
    have h1 := hg k (Nat.lt_succ_of_lt hk)
    have h2 := hg (k + 1) (Nat.succ_lt_succ hk)
    rw [segStep_iff, h1, h2, SEGMENT_LENGTH]
    push_cast
    ring

lemma rangeMap_head {z0 : ℚ} {n : ℕ} {g : ℕ → RoadSegment} (hn : n ≠ 0)
    (hg : ∀ i, i < n → (g i).z = z0 + ((i : ℚ) + 1) * SEGMENT_LENGTH) :
    ∃ s, ((List.range n).map g).head? = some s ∧ s.z = z0 + SEGMENT_LENGTH := by
  cases n with
  | zero => exact absurd rfl hn
  | succ m =>
    refine ⟨g 0, ?_, ?_⟩
    · rw [List.range_succ_eq_map]
      simp
    · have h0 := hg 0 (Nat.succ_pos m)
      rw [h0]
      push_cast
      ring

lemma rangeMap_getLast {z0 : ℚ} {n : ℕ} {g : ℕ → RoadSegment} (hn : n ≠ 0)
    (hg : ∀ i, i < n → (g i).z = z0 + ((i : ℚ) + 1) * SEGMENT_LENGTH) :
    ∃ s, ((List.range n).map g).getLast? = some s ∧ s.z = z0 + (n : ℚ) * SEGMENT_LENGTH := by
  cases n with
  | zero => exact absurd rfl hn
  | succ m =>
    refine ⟨g m, ?_, ?_⟩
    · rw [List.range_succ, List.map_append]
      exact List.getLast?_concat _
    · have hm := hg m (Nat.lt_succ_self m)
      rw [hm]
      push_cast
      ring

lemma ok_congr {l : List RoadSegment} {z z' : ℚ} (h : Ok l z) (hz : z = z') : Ok l z' :=
  hz ▸ h

lemma ok_append_part {l : List RoadSegment} {z : ℚ} {n : ℕ} {g : ℕ → RoadSegment}
    (h : Ok l z)
    (hg : ∀ i, i < n → (g i).z = z + ((i : ℚ) + 1) * SEGMENT_LENGTH) :
    Ok (l ++ (List.range n).map g) (z + (n : ℚ) * SEGMENT_LENGTH) := by
  obtain ⟨hchain, hlast⟩ := h
  by_cases hn : n = 0
  · subst hn
    constructor
    · simpa using hchain
    · intro s hs
      simp only [List.range_zero, List.map_nil, List.append_nil] at hs
      rw [hlast s hs]
      push_cast
      ring
  · constructor
    · rw [List.chain'_append]
      refine ⟨hchain, chain'_rangeMap hg, ?_⟩
      intro x hx y hy
      obtain ⟨s, hs, hsz⟩ := rangeMap_head hn hg
      rw [hs, Option.mem_some_iff] at hy
      subst hy
      rw [segStep_iff, hsz, hlast x hx, SEGMENT_LENGTH]
    · intro s hs
      obtain ⟨t, ht, htz⟩ := rangeMap_getLast hn hg
      rw [List.getLast?_append, ht] at hs
      simp only [Option.or_some, Option.mem_some_iff] at hs
      subst hs
      exact htz

lemma ok_startZOf {road : RoadState} (hc : List.Chain' SegStep road.segments) :
    Ok road.segments (startZOf road) := by
  refine ⟨hc, ?_⟩
  intro s hs
  rw [Option.mem_def] at hs
  rw [startZOf, hs]

lemma addTrackSegment_segments (road : RoadState) (enter hold exitLen curve : ℚ) :
    (addTrackSegment road enter hold exitLen curve).segments =
      road.segments ++
        ((List.range ⌈enter⌉₊).map fun (i : ℕ) =>
          (⟨startZOf road + ((i : ℚ) + 1) * SEGMENT_LENGTH,
            lerp 0 curve ((i : ℚ) / enter), false⟩ : RoadSegment)) ++
        ((List.range ⌈hold⌉₊).map fun (i : ℕ) =>
          (⟨startZOf road + (enter + (i : ℚ) + 1) * SEGMENT_LENGTH, curve,
            decide (hold / 2 - 2 < (i : ℚ) ∧ (i : ℚ) < hold / 2 + 2)⟩ : RoadSegment)) ++
        ((List.range ⌈exitLen⌉₊).map fun (i : ℕ) =>
          (⟨startZOf road + (enter + hold + (i : ℚ) + 1) * SEGMENT_LENGTH,
            lerp curve 0 ((i : ℚ) / exitLen), false⟩ : RoadSegment)) := rfl

lemma addTrackSegment_length (road : RoadState) (enter hold exitLen curve : ℚ) :
    (addTrackSegment road enter hold exitLen curve).segments.length =
      road.segments.length + (⌈enter⌉₊ + ⌈hold⌉₊ + ⌈exitLen⌉₊) := by
  rw [addTrackSegment_segments]
  simp only [List.length_append, List.length_map, List.length_range]
  omega

lemma addTrackSegment_ok (road : RoadState) (enter hold exitLen curve : ℚ)
    (he : enter = (⌈enter⌉₊ : ℚ))
    (hh : ⌈exitLen⌉₊ ≠ 0 → hold = (⌈hold⌉₊ : ℚ))
    (hc : List.Chain' SegStep road.segments) :
    Ok (addTrackSegment road enter hold exitLen curve).segments
      (startZOf road + ((⌈enter⌉₊ + ⌈hold⌉₊ + ⌈exitLen⌉₊ : ℕ) : ℚ) * SEGMENT_LENGTH) := by
  rw [addTrackSegment_segments]
  have h0 : Ok road.segments (startZOf road) := ok_startZOf hc
  have hA := ok_append_part (n := ⌈enter⌉₊) (g := fun i =>
      (⟨startZOf road + ((i : ℚ) + 1) * SEGMENT_LENGTH,
        lerp 0 curve ((i : ℚ) / enter), false⟩ : RoadSegment))
    h0 (fun i _ => rfl)
  have hA' := ok_congr hA (show startZOf road + (⌈enter⌉₊ : ℚ) * SEGMENT_LENGTH =
      startZOf road + enter * SEGMENT_LENGTH by rw [← he])
  have hB := ok_append_part (n := ⌈hold⌉₊) (g := fun i =>
      (⟨startZOf road + (enter + (i : ℚ) + 1) * SEGMENT_LENGTH, curve,
        decide (hold / 2 - 2 < (i : ℚ) ∧ (i : ℚ) < hold / 2 + 2)⟩ : RoadSegment))
    hA' (fun i _ => show startZOf road + (enter + (i : ℚ) + 1) * SEGMENT_LENGTH =
      startZOf road + enter * SEGMENT_LENGTH + ((i : ℚ) + 1) * SEGMENT_LENGTH by ring)
  by_cases hx : ⌈exitLen⌉₊ = 0
  · have hC := ok_append_part (n := ⌈exitLen⌉₊) (g := fun i =>
        (⟨startZOf road + (enter + hold + (i : ℚ) + 1) * SEGMENT_LENGTH,
          lerp curve 0 ((i : ℚ) / exitLen), false⟩ : RoadSegment))
      hB (fun i hi => absurd hi (by rw [hx]; exact Nat.not_lt_zero i))
    refine ok_congr hC ?_
    rw [hx]
    push_cast
    rw [← he]
    ring
  · have hB' := ok_congr hB (show startZOf road + enter * SEGMENT_LENGTH +
        (⌈hold⌉₊ : ℚ) * SEGMENT_LENGTH = startZOf road + (enter + hold) * SEGMENT_LENGTH by
      rw [← hh hx]; ring)
    have hC := ok_append_part (n := ⌈exitLen⌉₊) (g := fun i =>
        (⟨startZOf road + (enter + hold + (i : ℚ) + 1) * SEGMENT_LENGTH,
          lerp curve 0 ((i : ℚ) / exitLen), false⟩ : RoadSegment))
      hB' (fun i _ => show startZOf road + (enter + hold + (i : ℚ) + 1) * SEGMENT_LENGTH =
        startZOf road + (enter + hold) * SEGMENT_LENGTH + ((i : ℚ) + 1) * SEGMENT_LENGTH by ring)
    refine ok_congr hC ?_
    push_cast
    rw [← he, ← hh hx]
    ring

lemma chain'_dropWhile {p : RoadSegment → Bool} {l : List RoadSegment}
    (h : List.Chain' SegStep l) : List.Chain' SegStep (l.dropWhile p) := by
  induction l with
  | nil => simp
  | cons a as ih =>
    rw [List.dropWhile_cons]
    by_cases hpa : p a = true
    · rw [if_pos hpa]
      exact ih h.tail
    · rw [if_neg hpa]
      exact h

lemma dropWhile_getLast?_of_stop {p : RoadSegment → Bool} {l : List RoadSegment}
    {s : RoadSegment} (hl : l.getLast? = some s) (hp : p s = false) :
    (l.dropWhile p).getLast? = some s := by
  induction l with
  | nil => simp at hl
  | cons a as ih =>
    rw [List.dropWhile_cons]
    cases as with
    | nil =>
      simp only [List.getLast?_singleton, Option.some_inj] at hl
      subst hl
      rw [if_neg (by rw [hp]; exact Bool.false_ne_true)]
      rfl
    | cons b bs =>
      rw [List.getLast?_cons_cons] at hl
      by_cases hpa : p a = true
      · rw [if_pos hpa]
        exact ih hl
      · rw [if_neg hpa, List.getLast?_cons_cons]
        exact hl

lemma chain'_pairwise_lt {l : List RoadSegment} (h : List.Chain' SegStep l) :
    List.Pairwise (fun a b => a.z < b.z) l := by
  haveI : IsTrans RoadSegment (fun a b => a.z < b.z) :=
    ⟨fun a b c h1 h2 => lt_trans h1 h2⟩
  refine List.chain'_iff_pairwise.mp (h.imp ?_)
  intro a b hab
  rw [segStep_iff] at hab
  rw [hab]
  have : (0 : ℚ) < 100 := by norm_num
  linarith

lemma dropWhile_lower {l : List RoadSegment} {c : ℚ}
    (h : List.Chain' SegStep l) :
    ∀ s ∈ l.dropWhile (fun s => decide (s.z < c)), c ≤ s.z := by
  induction l with
  | nil => simp
  | cons a as ih =>
    rw [List.dropWhile_cons]
    by_cases hpa : a.z < c
    · rw [if_pos (by rw [decide_eq_true_iff]; exact hpa)]
      exact ih h.tail
    · rw [if_neg (by rw [decide_eq_true_iff]; exact hpa)]
      intro s hs
      rcases List.mem_cons.mp hs with rfl | hmem
      · exact le_of_not_lt hpa
      · have hlt : a.z < s.z := List.rel_of_pairwise_cons (chain'_pairwise_lt h) hmem
        exact le_trans (le_of_not_lt hpa) (le_of_lt hlt)

lemma q_eq_ceil {q : ℚ} (n : ℕ) (h : q = (n : ℚ)) : q = (⌈q⌉₊ : ℚ) := by
  rw [h, Nat.ceil_natCast]

lemma patternBlocks_chain {road : RoadState} (d : Draws)
    (hc : List.Chain' SegStep road.segments) :
    List.Chain' SegStep (patternBlocks road d).segments := by
  simp only [patternBlocks]
  generalize (if d.dirPos then (1 : ℚ) else -1) = w
  split_ifs with h1 h2 h3
  · exact (addTrackSegment_ok road 0 d.holdRand 0 0 (q_eq_ceil 0 (by norm_num))
      (fun hx => absurd (by norm_num) hx) hc).1
  · exact (addTrackSegment_ok road 20 20 20 _ (q_eq_ceil 20 (by norm_num))
      (fun _ => q_eq_ceil 20 (by norm_num)) hc).1
  · exact (addTrackSegment_ok (addTrackSegment road 15 10 15 _) 15 10 15 _
      (q_eq_ceil 15 (by norm_num)) (fun _ => q_eq_ceil 10 (by norm_num))
      (addTrackSegment_ok road 15 10 15 _ (q_eq_ceil 15 (by norm_num))
        (fun _ => q_eq_ceil 10 (by norm_num)) hc).1).1
  · exact (addTrackSegment_ok road 30 40 30 _ (q_eq_ceil 30 (by norm_num))
      (fun _ => q_eq_ceil 40 (by norm_num)) hc).1

lemma generateRoadPre_chain (road : RoadState) (d : Draws) (Z : ℚ)
    (hc : List.Chain' SegStep road.segments) :
    List.Chain' SegStep (generateRoadPre road d Z).segments := by
  have h1 : List.Chain' SegStep
      (if road.segments = [] then addTrackSegment road 0 50 0 0 else road).segments := by
    split_ifs with hempty
    · exact (addTrackSegment_ok road 0 50 0 0 (q_eq_ceil 0 (by norm_num))
        (fun _ => q_eq_ceil 50 (by norm_num)) hc).1
    · exact hc
  have h2 : ∀ r : RoadState, List.Chain' SegStep r.segments →
      List.Chain' SegStep
        (match r.segments.getLast? with
          | some lastSeg =>
              if lastSeg.z < Z + VISIBLE_SEGMENTS * SEGMENT_LENGTH then patternBlocks r d
              else r
          | none => r).segments := by
    intro r hr
    cases r.segments.getLast? with
    | none => exact hr
    | some s =>
      dsimp only
      split_ifs with hhor
      · exact patternBlocks_chain d hr
      · exact hr
  exact h2 _ h1

lemma generateRoad_segments (road : RoadState) (d : Draws) (Z : ℚ) :
    (generateRoad road d Z).segments =
      (generateRoadPre road d Z).segments.dropWhile (fun s => decide (s.z < Z - 2000)) := rfl

lemma generateRoad_apexPoints (road : RoadState) (d : Draws) (Z : ℚ) :
    (generateRoad road d Z).apexPoints =
      (generateRoadPre road d Z).apexPoints.filter (fun ap => decide (Z - 1000 < ap.z)) := rfl

lemma generateRoad_chain (road : RoadState) (d : Draws) (Z : ℚ)
    (hc : List.Chain' SegStep road.segments) :
    List.Chain' SegStep (generateRoad road d Z).segments := by
  rw [generateRoad_segments]
  exact chain'_dropWhile (generateRoadPre_chain road d Z hc)

lemma patternBlocks_spec (road : RoadState) (d : Draws)
    (h10 : 10 ≤ d.holdRand) (h30 : d.holdRand < 30)
    (hc : List.Chain' SegStep road.segments) :
    ∃ k : ℕ, 10 ≤ k ∧ k ≤ 100 ∧
      (patternBlocks road d).segments.length = road.segments.length + k ∧
      Ok (patternBlocks road d).segments (startZOf road + (k : ℚ) * SEGMENT_LENGTH) := by
  simp only [patternBlocks]
  generalize (if d.dirPos then (1 : ℚ) else -1) = w
  split_ifs with h1 h2 h3
  · refine ⟨⌈d.holdRand⌉₊, ?_, ?_, ?_, ?_⟩
    · have hle : (10 : ℚ) ≤ (⌈d.holdRand⌉₊ : ℚ) := le_trans h10 (Nat.le_ceil _)
      exact_mod_cast hle
    · exact Nat.ceil_le.mpr (le_of_lt (lt_of_lt_of_le h30 (by norm_num)))
    · rw [addTrackSegment_length]
      norm_num
    · refine ok_congr (addTrackSegment_ok road 0 d.holdRand 0 0 (q_eq_ceil 0 (by norm_num))
        (fun hx => absurd (by norm_num) hx) hc) ?_
      norm_num
  · refine ⟨60, by norm_num, by norm_num, ?_, ?_⟩
    · rw [addTrackSegment_length]
      norm_num
    · refine ok_congr (addTrackSegment_ok road 20 20 20 _ (q_eq_ceil 20 (by norm_num))
        (fun _ => q_eq_ceil 20 (by norm_num)) hc) ?_
      norm_num
  · refine ⟨80, by norm_num, by norm_num, ?_, ?_⟩
    · rw [addTrackSegment_length, addTrackSegment_length]
      norm_num
    · have hmid := addTrackSegment_ok road 15 10 15 (d.intensity * w)
        (q_eq_ceil 15 (by norm_num)) (fun _ => q_eq_ceil 10 (by norm_num)) hc
      have hmid' := ok_congr hmid (by norm_num :
        startZOf road + ((⌈(15:ℚ)⌉₊ + ⌈(10:ℚ)⌉₊ + ⌈(15:ℚ)⌉₊ : ℕ) : ℚ) * SEGMENT_LENGTH =
          startZOf road + 40 * SEGMENT_LENGTH)
      have hfin := addTrackSegment_ok (addTrackSegment road 15 10 15 (d.intensity * w)) 15 10 15
        (-(d.intensity * w))
        (q_eq_ceil 15 (by norm_num)) (fun _ => q_eq_ceil 10 (by norm_num)) hmid.1
      have hlen : (addTrackSegment road 15 10 15 (d.intensity * w)).segments.length =
          road.segments.length + 40 := by
        rw [addTrackSegment_length]
        norm_num
      have hne : (addTrackSegment road 15 10 15 (d.intensity * w)).segments ≠ [] := by
        intro hnil
        rw [hnil] at hlen
        simp at hlen
      obtain ⟨t, ht⟩ := Option.isSome_iff_exists.mp (List.getLast?_isSome.mpr hne)
      have htz : t.z = startZOf road + 40 * SEGMENT_LENGTH := hmid'.2 t ht
      have hstart : startZOf (addTrackSegment road 15 10 15 (d.intensity * w)) =
          startZOf road + 40 * SEGMENT_LENGTH := by
        rw [startZOf, ht]
        exact htz
      refine ok_congr hfin ?_
      rw [hstart]
      norm_num
      ring
  · refine ⟨100, by norm_num, by norm_num, ?_, ?_⟩
    · rw [addTrackSegment_length]
      norm_num
    · refine ok_congr (addTrackSegment_ok road 30 40 30 _ (q_eq_ceil 30 (by norm_num))
        (fun _ => q_eq_ceil 40 (by norm_num)) hc) ?_
      norm_num


lemma generateRoadPre_horizon (road : RoadState) (d : Draws) (Z : ℚ) (s0 : RoadSegment)
    (h0 : road.segments.getLast? = some s0)
    (h10 : 10 ≤ d.holdRand) (h30 : d.holdRand < 30)
    (hz : Z + 19000 ≤ s0.z)
    (hc : List.Chain' SegStep road.segments) :
    (∃ s1, (generateRoadPre road d Z).segments.getLast? = some s1 ∧
      Z + VISIBLE_SEGMENTS * SEGMENT_LENGTH ≤ s1.z) ∧
    (generateRoadPre road d Z).segments.length ≤ road.segments.length + 100 := by
  have hne : road.segments ≠ [] := by
    intro h
    rw [h] at h0
    simp at h0
  simp only [generateRoadPre]
  rw [if_neg hne, h0]
  dsimp only
  split_ifs with hhor
  · obtain ⟨k, hk10, hk100, hlen, hok⟩ := patternBlocks_spec road d h10 h30 hc
    constructor
    · have hstart : startZOf road = s0.z := by rw [startZOf, h0]
      have hne2 : (patternBlocks road d).segments ≠ [] := by
        intro hnil
        rw [hnil] at hlen
        simp only [List.length_nil] at hlen
        omega
      obtain ⟨t, ht⟩ := Option.isSome_iff_exists.mp (List.getLast?_isSome.mpr hne2)
      refine ⟨t, ht, ?_⟩
      have htz := hok.2 t ht
      rw [htz, hstart, SEGMENT_LENGTH, VISIBLE_SEGMENTS]
      have hk : (10 : ℚ) ≤ (k : ℚ) := by exact_mod_cast hk10
      have hmul : (10 : ℚ) * 100 ≤ (k : ℚ) * 100 :=
        mul_le_mul_of_nonneg_right hk (by norm_num)
      linarith
    · rw [hlen]
      omega
  · refine ⟨⟨s0, h0, ?_⟩, by omega⟩
    rw [not_lt] at hhor
    exact hhor

lemma generateRoadPre_ext (road : RoadState) (d : Draws) (Z : ℚ) (s0 : RoadSegment)
    (h0 : road.segments.getLast? = some s0)
    (hlt : s0.z < Z + VISIBLE_SEGMENTS * SEGMENT_LENGTH) :
    generateRoadPre road d Z = patternBlocks road d := by
  have hne : road.segments ≠ [] := by
    intro h
    rw [h] at h0
    simp at h0
  simp only [generateRoadPre]
  rw [if_neg hne, h0]
  dsimp only
  rw [if_pos hlt]

lemma generateRoadPre_empty_ext (road : RoadState) (d : Draws) (Z : ℚ) (s0 : RoadSegment)
    (hemp : road.segments = [])
    (h0 : (addTrackSegment road 0 50 0 0).segments.getLast? = some s0)
    (hlt : s0.z < Z + VISIBLE_SEGMENTS * SEGMENT_LENGTH) :
    generateRoadPre road d Z = patternBlocks (addTrackSegment road 0 50 0 0) d := by
  simp only [generateRoadPre]
  rw [if_pos hemp, h0]
  dsimp only
  rw [if_pos hlt]

lemma patternBlocks_straight (road : RoadState) (d : Draws) (h : d.pattern < 1/5) :
    patternBlocks road d = addTrackSegment road 0 d.holdRand 0 0 := by
  simp only [patternBlocks]
  rw [if_pos h]

lemma patternBlocks_long (road : RoadState) (d : Draws)
    (h1 : ¬d.pattern < 1/5) (h2 : ¬d.pattern < 1/2) (h3 : ¬d.pattern < 4/5) :
    patternBlocks road d =
      addTrackSegment road 30 40 30 (d.intensity * (if d.dirPos then 1 else -1)) := by
  simp only [patternBlocks]
  rw [if_neg h1, if_neg h2, if_neg h3]

/-- C3 (confirmed): for every sequence of `generateRoad` calls starting from
the empty track state -- any random block parameters and any pruning
positions interleaved -- the stored segment list has strictly increasing `z`
with consecutive stored segments exactly `SEGMENT_LENGTH` apart: appending a
block never creates a gap or a duplicate `z`. -/
theorem claim3_contiguity (calls : List (Draws × ℚ)) :
    List.Chain' SegStep (applyGenCalls calls ⟨[], []⟩).segments ∧
    List.Pairwise (fun a b => a.z < b.z) (applyGenCalls calls ⟨[], []⟩).segments := by
  have hmain : ∀ (cs : List (Draws × ℚ)) (road : RoadState),
      List.Chain' SegStep road.segments →
      List.Chain' SegStep (applyGenCalls cs road).segments := by
    intro cs
    induction cs with
    | nil => exact fun road h => h
    | cons c rest ih => exact fun road h => ih _ (generateRoad_chain road c.1 c.2 h)
  have hchain := hmain calls ⟨[], []⟩ List.chain'_nil
  exact ⟨hchain, chain'_pairwise_lt hchain⟩

/-- C2 (counterexample): the very first `generateRoad(0)` call on an empty
track seeds the 50-segment initial straight and appends one pattern block,
yet even with the longest possible block (the 100-segment long hard turn)
the last stored segment ends at `z = 15000`, strictly below
`referenceZ + VISIBLE_SEGMENTS * SEGMENT_LENGTH = 20000` -- so the claimed
horizon guarantee fails for this reachable call. -/
theorem claim2_counterexample :
    ((generateRoad ⟨[], []⟩ ⟨9/10, 10, 8, true⟩ 0).segments.getLast?).map RoadSegment.z =
      some 15000 ∧
    ¬((0 : ℚ) + VISIBLE_SEGMENTS * SEGMENT_LENGTH ≤ 15000) := by
  have hstart0 : startZOf ⟨[], []⟩ = 0 := rfl
  have hinit : Ok (addTrackSegment ⟨[], []⟩ 0 50 0 0).segments 5000 := by
    refine ok_congr (addTrackSegment_ok ⟨[], []⟩ 0 50 0 0 (q_eq_ceil 0 (by norm_num))
      (fun _ => q_eq_ceil 50 (by norm_num)) List.chain'_nil) ?_
    rw [hstart0]
    norm_num [SEGMENT_LENGTH]
  have hlen0 : (addTrackSegment ⟨[], []⟩ 0 50 0 0).segments.length = 50 := by
    rw [addTrackSegment_length]
    norm_num
  have hne0 : (addTrackSegment ⟨[], []⟩ 0 50 0 0).segments ≠ [] := by
    intro h
    rw [h] at hlen0
    simp at hlen0
  obtain ⟨t, ht⟩ := Option.isSome_iff_exists.mp (List.getLast?_isSome.mpr hne0)
  have htz : t.z = 5000 := hinit.2 t ht
  have hpre : generateRoadPre ⟨[], []⟩ ⟨9/10, 10, 8, true⟩ 0 =
      patternBlocks (addTrackSegment ⟨[], []⟩ 0 50 0 0) ⟨9/10, 10, 8, true⟩ :=
    generateRoadPre_empty_ext ⟨[], []⟩ ⟨9/10, 10, 8, true⟩ 0 t rfl ht
      (by rw [htz]; norm_num [VISIBLE_SEGMENTS, SEGMENT_LENGTH])
  have hpat : patternBlocks (addTrackSegment ⟨[], []⟩ 0 50 0 0) ⟨9/10, 10, 8, true⟩ =
      addTrackSegment (addTrackSegment ⟨[], []⟩ 0 50 0 0) 30 40 30
        (8 * (if true then (1 : ℚ) else -1)) :=
    patternBlocks_long _ _ (by norm_num) (by norm_num) (by norm_num)
  have hfin' : Ok (addTrackSegment (addTrackSegment ⟨[], []⟩ 0 50 0 0) 30 40 30
      (8 * (if true then (1 : ℚ) else -1))).segments 15000 := by
    refine ok_congr (addTrackSegment_ok (addTrackSegment ⟨[], []⟩ 0 50 0 0) 30 40 30
      (8 * (if true then (1 : ℚ) else -1))
      (q_eq_ceil 30 (by norm_num)) (fun _ => q_eq_ceil 40 (by norm_num)) hinit.1) ?_
    rw [show startZOf (addTrackSegment ⟨[], []⟩ 0 50 0 0) = 5000 by rw [startZOf, ht]; exact htz]
    norm_num [SEGMENT_LENGTH]
  have hlen1 : (addTrackSegment (addTrackSegment ⟨[], []⟩ 0 50 0 0) 30 40 30
      (8 * (if true then (1 : ℚ) else -1))).segments.length = 150 := by
    rw [addTrackSegment_length, hlen0]
    norm_num
  have hne1 : (addTrackSegment (addTrackSegment ⟨[], []⟩ 0 50 0 0) 30 40 30
      (8 * (if true then (1 : ℚ) else -1))).segments ≠ [] := by
    intro h
    rw [h] at hlen1
    simp at hlen1
  obtain ⟨u, hu⟩ := Option.isSome_iff_exists.mp (List.getLast?_isSome.mpr hne1)
  have huz : u.z = 15000 := hfin'.2 u hu
  constructor
  · rw [generateRoad_segments, hpre, hpat,
      dropWhile_getLast?_of_stop hu (by rw [decide_eq_false_iff_not, huz]; norm_num)]
    rw [Option.map_some', huz]
  · norm_num [VISIBLE_SEGMENTS, SEGMENT_LENGTH]

/-- C2 (amended): a `generateRoad` call appends at most one pattern block
(at most 100 segments, given the straight hold draw is in its
`randomRange(10,30)` range), and the horizon guarantee
`lastZ ≥ referenceZ + VISIBLE_SEGMENTS * SEGMENT_LENGTH` holds after the
call provided the pre-call last segment was already within one minimal
block (1000 = 10 segments) of the horizon, i.e. `lastZ ≥ referenceZ + 19000`. -/
theorem claim2_horizon_one_block (road : RoadState) (d : Draws) (Z : ℚ) (s0 : RoadSegment)
    (h0 : road.segments.getLast? = some s0)
    (h10 : 10 ≤ d.holdRand) (h30 : d.holdRand < 30)
    (hz : Z + 19000 ≤ s0.z)
    (hc : List.Chain' SegStep road.segments) :
    (∃ s1, (generateRoad road d Z).segments.getLast? = some s1 ∧
      Z + VISIBLE_SEGMENTS * SEGMENT_LENGTH ≤ s1.z) ∧
    (generateRoad road d Z).segments.length ≤ road.segments.length + 100 := by
  obtain ⟨⟨s1, hs1, hs1z⟩, hlen⟩ := generateRoadPre_horizon road d Z s0 h0 h10 h30 hz hc
  constructor
  · refine ⟨s1, ?_, hs1z⟩
    rw [generateRoad_segments]
    apply dropWhile_getLast?_of_stop hs1
    rw [decide_eq_false_iff_not, not_lt]
    rw [VISIBLE_SEGMENTS, SEGMENT_LENGTH] at hs1z
    linarith
  · rw [generateRoad_segments]
    exact le_trans (List.dropWhile_sublist _).length_le hlen

/-- C2 witness: a concrete call with the last segment at `z = 19000` and
reference 0 restores the 20000-unit horizon with a single straight block. -/
theorem claim2_horizon_witness :
    (∃ s1, (generateRoad ⟨[⟨19000, 0, false⟩], []⟩ ⟨0, 10, 0, true⟩ 0).segments.getLast? =
        some s1 ∧ (0 : ℚ) + VISIBLE_SEGMENTS * SEGMENT_LENGTH ≤ s1.z) ∧
    (generateRoad ⟨[⟨19000, 0, false⟩], []⟩ ⟨0, 10, 0, true⟩ 0).segments.length ≤
      ([⟨19000, 0, false⟩] : List RoadSegment).length + 100 :=
  claim2_horizon_one_block ⟨[⟨19000, 0, false⟩], []⟩ ⟨0, 10, 0, true⟩ 0 ⟨19000, 0, false⟩
    rfl (by norm_num) (by norm_num) (by norm_num) (List.chain'_singleton _)

/-- C4 (counterexample): `generateRoad(2000)` on a state holding a segment at
`z = 0 = referenceZ - 2000` keeps that segment (the prune condition is the
strict `z < referenceZ - 2000`), so it is false that after the call every
stored segment has `z > referenceZ - 2000`. -/
theorem claim4_counterexample :
    (⟨0, 0, false⟩ : RoadSegment) ∈
      (generateRoad ⟨[⟨0, 0, false⟩], []⟩ ⟨0, 10, 0, true⟩ 2000).segments ∧
    ¬((2000 : ℚ) - 2000 < (0 : ℚ)) := by
  have hpre : generateRoadPre ⟨[⟨0, 0, false⟩], []⟩ ⟨0, 10, 0, true⟩ 2000 =
      addTrackSegment ⟨[⟨0, 0, false⟩], []⟩ 0 10 0 0 := by
    rw [generateRoadPre_ext ⟨[⟨0, 0, false⟩], []⟩ ⟨0, 10, 0, true⟩ 2000 ⟨0, 0, false⟩
      (List.getLast?_singleton _) (by norm_num [VISIBLE_SEGMENTS, SEGMENT_LENGTH])]
    exact patternBlocks_straight _ _ (by norm_num)

  constructor
  · rw [generateRoad_segments, hpre, addTrackSegment_segments]
    simp only [List.cons_append, List.nil_append]
    rw [List.dropWhile_cons]
    rw [if_neg (by simp only [decide_eq_true_iff]; norm_num)]
    exact List.mem_cons_self _ _
  · norm_num

/-- C4 (amended): after `generateRoad(Z)` on any state with a contiguous
stored segment list, every stored segment has `z ≥ Z - 2000` (entries
strictly below that bound are discarded by the front pruning loop) and every
stored apex point has `z > Z - 1000` (entries at or below that bound are
discarded by the filter). -/
theorem claim4_pruning (road : RoadState) (d : Draws) (Z : ℚ)
    (hc : List.Chain' SegStep road.segments) :
    (∀ s ∈ (generateRoad road d Z).segments, Z - 2000 ≤ s.z) ∧
    (∀ ap ∈ (generateRoad road d Z).apexPoints, Z - 1000 < ap.z) := by
  constructor
  · rw [generateRoad_segments]
    exact dropWhile_lower (generateRoadPre_chain road d Z hc)
  · rw [generateRoad_apexPoints]
    intro ap hap
    rw [List.mem_filter] at hap
    exact of_decide_eq_true hap.2

/-- C4 witness: the pruning bounds instantiate on the first call of a run. -/
theorem claim4_pruning_witness :
    (∀ s ∈ (generateRoad ⟨[], []⟩ ⟨0, 10, 0, true⟩ 0).segments, (0 : ℚ) - 2000 ≤ s.z) ∧
    (∀ ap ∈ (generateRoad ⟨[], []⟩ ⟨0, 10, 0, true⟩ 0).apexPoints, (0 : ℚ) - 1000 < ap.z) :=
  claim4_pruning ⟨[], []⟩ ⟨0, 10, 0, true⟩ 0 List.chain'_nil

/-- C1 (counterexample): a Driving tick that starts with
`lateralOffset = 1.76 > COLLISION_THRESHOLD` but steers hard left
(`lean = -1`, left input held) at `dt = 0.1` pulls the vehicle back to
`x = 0.76` before the collision check runs, so no Crashed transition fires
in that tick -- the check uses the post-update offset, not the tick-start
offset. -/
theorem claim1_counterexample :
    COLLISION_THRESHOLD < |(44/25 : ℚ)| ∧ (0 : ℚ) < 1/10 ∧ (1/10 : ℚ) ≤ 1/10 ∧
    (update GameState.PLAYING
      ⟨44/25, -1, -1, 9500, 0, 0, false, ⟨false, 0, 0, 0, 0, 0, 0⟩, 0, [], 1⟩
      ⟨[⟨100, 0, false⟩], []⟩ ⟨true, false⟩ ⟨0, 10, 0, true⟩ (1/10) 1).2.2 = false := by
  refine ⟨?_, by norm_num, le_refl _, ?_⟩
  · rw [COLLISION_THRESHOLD, abs_of_nonneg (by norm_num : (0:ℚ) ≤ 44/25)]
    norm_num
  · norm_num [update, targetLeanOf, accelSpeed, currentCurve, List.find?, apexHitStep, scoreStep,
      apexWindow, lerp, mathSign, frictionSpeed, handleCrashState, COLLISION_THRESHOLD, MAX_SPEED,
      ACCELERATION, LEAN_SMOOTHING, STEER_SENSITIVITY, CURVE_SENSITIVITY, OFF_ROAD_LIMIT,
      OFF_ROAD_FRICTION, PERFECT_WINDOW]
    rw [if_neg (fun h => GameState.noConfusion h)]
    norm_num
    rw [abs_of_nonneg (by norm_num : (0:ℚ) ≤ 19/25)]
    norm_num

/-- C1 (amended): on every Driving tick the `Driving → Crashed` transition
fires exactly when the lateral offset magnitude exceeds
`COLLISION_THRESHOLD` after that tick's lateral update (steering force,
centrifugal pull and auto-centering) -- i.e. the collision check reads the
end-of-tick offset, which is also the offset returned in the new state. -/
theorem claim1_crash_iff (p : Player) (r : RoadState) (inp : Inputs) (d : Draws) (dt ts : ℚ) :
    (update GameState.PLAYING p r inp d dt ts).2.2 = true ↔
      COLLISION_THRESHOLD < |((update GameState.PLAYING p r inp d dt ts).1).x| :=
  decide_eq_true_iff

/-- C7 (confirmed): `project` is a pure function computing
`scale = cameraDepth / max 10 (z - cameraZ)`; for fixed X, Y and camera with
positive `cameraDepth`, the scale is constant while the clamped relative
depth sits at the 10-unit floor and strictly decreases as Z grows past it. -/
theorem claim7_projection_monotone (a b camX camY camZ cD w h rW Z1 Z2 : ℚ)
    (hd : 0 < cD) (h1 : camZ < Z1) (h12 : Z1 < Z2) :
    (∀ Z, (project a b Z camX camY camZ cD w h rW).scale = cD / max 10 (Z - camZ)) ∧
    (Z2 - camZ ≤ 10 →
      (project a b Z2 camX camY camZ cD w h rW).scale =
        (project a b Z1 camX camY camZ cD w h rW).scale) ∧
    (10 < Z2 - camZ →
      (project a b Z2 camX camY camZ cD w h rW).scale <
        (project a b Z1 camX camY camZ cD w h rW).scale) := by
  refine ⟨fun Z => rfl, ?_, ?_⟩
  · intro hle
    show cD / max 10 (Z2 - camZ) = cD / max 10 (Z1 - camZ)
    rw [max_eq_left hle, max_eq_left (by linarith)]
  · intro hgt
    show cD / max 10 (Z2 - camZ) < cD / max 10 (Z1 - camZ)
    rw [max_eq_right (le_of_lt hgt)]
    refine div_lt_div_of_pos_left hd ?_ ?_
    · exact lt_of_lt_of_le (by norm_num) (le_max_left 10 (Z1 - camZ))
    · exact max_lt hgt (by linarith)

/-- C7 witness: the monotonicity facts at the shipped camera depth `0.8`,
camera at the origin and depths 20 and 30. -/
theorem claim7_projection_witness :
    (∀ Z, (project 0 0 Z 0 0 0 CAMERA_DEPTH 800 600 ROAD_WIDTH).scale =
      CAMERA_DEPTH / max 10 (Z - 0)) ∧
    ((30 : ℚ) - 0 ≤ 10 →
      (project 0 0 30 0 0 0 CAMERA_DEPTH 800 600 ROAD_WIDTH).scale =
        (project 0 0 20 0 0 0 CAMERA_DEPTH 800 600 ROAD_WIDTH).scale) ∧
    ((10 : ℚ) < 30 - 0 →
      (project 0 0 30 0 0 0 CAMERA_DEPTH 800 600 ROAD_WIDTH).scale <
        (project 0 0 20 0 0 0 CAMERA_DEPTH 800 600 ROAD_WIDTH).scale) :=
  claim7_projection_monotone 0 0 0 0 0 CAMERA_DEPTH 800 600 ROAD_WIDTH 20 30
    (by norm_num [CAMERA_DEPTH]) (by norm_num) (by norm_num)

lemma min_le_lerp (a b t : ℚ) (h0 : 0 ≤ t) (h1 : t ≤ 1) : min a b ≤ lerp a b t := by
  rw [lerp]
  nlinarith [min_le_left a b, min_le_right a b]

lemma lerp_le_max (a b t : ℚ) (h0 : 0 ≤ t) (h1 : t ≤ 1) : lerp a b t ≤ max a b := by
  rw [lerp]
  nlinarith [le_max_left a b, le_max_right a b]

lemma abs_targetLeanOf_le (inp : Inputs) : |targetLeanOf inp| ≤ 1 := by
  rw [targetLeanOf]
  split_ifs <;> norm_num

/-- C8 (counterexample): a Driving tick with `lean = 0`, right input held
and the clamped maximum `dt = 0.1` (time scale 1) computes
`lean = lerp(0, 1, 12 * 0.1) = 1.2`: the first-order filter has no
overshoot clamp and the lean leaves `[-1, 1]`. -/
theorem claim8_counterexample :
    (0 : ℚ) < 1/10 ∧ (1/10 : ℚ) ≤ 1/10 ∧
    ((update GameState.PLAYING ⟨0, 0, 0, 1500, 0, 0, false, ⟨false, 0, 0, 0, 0, 0, 0⟩, 0, [], 1⟩
      ⟨[⟨100, 0, false⟩], []⟩ ⟨false, true⟩ ⟨0, 10, 0, true⟩ (1/10) 1).1).leanVal = 6/5 ∧
    ¬(|(6/5 : ℚ)| ≤ 1) := by
  refine ⟨by norm_num, le_refl _, ?_, ?_⟩
  · norm_num [update, targetLeanOf, accelSpeed, currentCurve, List.find?, apexHitStep, scoreStep,
      apexWindow, lerp, mathSign, frictionSpeed, handleCrashState, COLLISION_THRESHOLD, MAX_SPEED,
      ACCELERATION, LEAN_SMOOTHING, STEER_SENSITIVITY, CURVE_SENSITIVITY, OFF_ROAD_LIMIT,
      OFF_ROAD_FRICTION, PERFECT_WINDOW]
  · rw [abs_of_nonneg (by norm_num : (0:ℚ) ≤ 6/5)]
    norm_num

/-- C8 (amended): the Driving-tick lean update is the raw
`lerp(lean, targetLean, LEAN_SMOOTHING * delta)` with no overshoot clamp;
whenever `LEAN_SMOOTHING * delta ≤ 1` (true for `delta ≤ 1/12`, but not for
the full clamped range up to 0.1) the update stays between the old lean and
the target, and with lean in `[-1, 1]` it remains in `[-1, 1]`. -/
theorem claim8_lean_no_overshoot (p : Player) (r : RoadState) (inp : Inputs) (d : Draws)
    (dt ts : ℚ) (h0 : 0 ≤ dt * ts) (h1 : LEAN_SMOOTHING * (dt * ts) ≤ 1)
    (h2 : |p.leanVal| ≤ 1) :
    ((update GameState.PLAYING p r inp d dt ts).1).leanVal =
      lerp p.leanVal (targetLeanOf inp) (LEAN_SMOOTHING * (dt * ts)) ∧
    min p.leanVal (targetLeanOf inp) ≤ ((update GameState.PLAYING p r inp d dt ts).1).leanVal ∧
    ((update GameState.PLAYING p r inp d dt ts).1).leanVal ≤
      max p.leanVal (targetLeanOf inp) ∧
    |((update GameState.PLAYING p r inp d dt ts).1).leanVal| ≤ 1 := by
  have heq : ((update GameState.PLAYING p r inp d dt ts).1).leanVal =
      lerp p.leanVal (targetLeanOf inp) (LEAN_SMOOTHING * (dt * ts)) := rfl
  have ht0 : 0 ≤ LEAN_SMOOTHING * (dt * ts) := by
    rw [LEAN_SMOOTHING]
    positivity
  have hlo := min_le_lerp p.leanVal (targetLeanOf inp) (LEAN_SMOOTHING * (dt * ts)) ht0 h1
  have hhi := lerp_le_max p.leanVal (targetLeanOf inp) (LEAN_SMOOTHING * (dt * ts)) ht0 h1
  refine ⟨heq, by rw [heq]; exact hlo, by rw [heq]; exact hhi, ?_⟩
  have htl := abs_targetLeanOf_le inp
  rw [heq, abs_le]
  rw [abs_le] at h2 htl
  constructor
  · exact le_trans (le_min h2.1 htl.1) hlo
  · exact le_trans hhi (max_le h2.2 htl.2)

/-- C8 witness: with `dt = 1/20` (so `LEAN_SMOOTHING * dt = 0.6 ≤ 1`) and the
run-start state under a right-steer input, the lean update does not
overshoot and stays in `[-1, 1]`. -/
theorem claim8_lean_witness :
    ((update GameState.PLAYING (initPlayer 0) ⟨[⟨100, 0, false⟩], []⟩ ⟨false, true⟩
        ⟨0, 10, 0, true⟩ (1/20) 1).1).leanVal =
      lerp (initPlayer 0).leanVal (targetLeanOf ⟨false, true⟩)
        (LEAN_SMOOTHING * (1/20 * 1)) ∧
    min (initPlayer 0).leanVal (targetLeanOf ⟨false, true⟩) ≤
      ((update GameState.PLAYING (initPlayer 0) ⟨[⟨100, 0, false⟩], []⟩ ⟨false, true⟩
        ⟨0, 10, 0, true⟩ (1/20) 1).1).leanVal ∧
    ((update GameState.PLAYING (initPlayer 0) ⟨[⟨100, 0, false⟩], []⟩ ⟨false, true⟩
        ⟨0, 10, 0, true⟩ (1/20) 1).1).leanVal ≤
      max (initPlayer 0).leanVal (targetLeanOf ⟨false, true⟩) ∧
    |((update GameState.PLAYING (initPlayer 0) ⟨[⟨100, 0, false⟩], []⟩ ⟨false, true⟩
        ⟨0, 10, 0, true⟩ (1/20) 1).1).leanVal| ≤ 1 :=
  claim8_lean_no_overshoot (initPlayer 0) ⟨[⟨100, 0, false⟩], []⟩ ⟨false, true⟩
    ⟨0, 10, 0, true⟩ (1/20) 1 (by norm_num) (by norm_num [LEAN_SMOOTHING])
    (by norm_num [initPlayer])

/-- C9 (counterexample): an off-road Driving tick at `speed = 9000`,
`dt = 0.1` first accelerates to `min(9000 + 250, 9500) = 9250` and only then
applies friction, ending at `9250 - 600 = 8650` -- not the claimed
`max(9000 - OFF_ROAD_FRICTION * dt, 2000) = 8400`: acceleration is not
skipped off-road. -/
theorem claim9_counterexample :
    ((update GameState.PLAYING ⟨6/5, 0, 0, 9000, 0, 0, false, ⟨false, 0, 0, 0, 0, 0, 0⟩, 0, [], 1⟩
      ⟨[⟨100, 0, false⟩], []⟩ ⟨false, false⟩ ⟨0, 10, 0, true⟩ (1/10) 1).1).offRoad = true ∧
    ((update GameState.PLAYING ⟨6/5, 0, 0, 9000, 0, 0, false, ⟨false, 0, 0, 0, 0, 0, 0⟩, 0, [], 1⟩
      ⟨[⟨100, 0, false⟩], []⟩ ⟨false, false⟩ ⟨0, 10, 0, true⟩ (1/10) 1).1).speed = 8650 ∧
    ¬((8650 : ℚ) = max (9000 - OFF_ROAD_FRICTION * (1/10 * 1)) 2000) := by
  refine ⟨?_, ?_, ?_⟩
  · norm_num [update, targetLeanOf, accelSpeed, currentCurve, List.find?, apexHitStep, scoreStep,
      apexWindow, lerp, mathSign, frictionSpeed, handleCrashState, COLLISION_THRESHOLD, MAX_SPEED,
      ACCELERATION, LEAN_SMOOTHING, STEER_SENSITIVITY, CURVE_SENSITIVITY, OFF_ROAD_LIMIT,
      OFF_ROAD_FRICTION, PERFECT_WINDOW]
    rw [abs_of_nonneg (by norm_num : (0:ℚ) ≤ 27/25)]
    norm_num
  · norm_num [update, targetLeanOf, accelSpeed, currentCurve, List.find?, apexHitStep, scoreStep,
      apexWindow, lerp, mathSign, frictionSpeed, handleCrashState, COLLISION_THRESHOLD, MAX_SPEED,
      ACCELERATION, LEAN_SMOOTHING, STEER_SENSITIVITY, CURVE_SENSITIVITY, OFF_ROAD_LIMIT,
      OFF_ROAD_FRICTION, PERFECT_WINDOW]
    rw [if_neg (fun h => GameState.noConfusion h)]
    norm_num
    rw [abs_of_nonneg (by norm_num : (0:ℚ) ≤ 27/25)]
    norm_num
  · rw [OFF_ROAD_FRICTION]
    norm_num

/-- C9 (amended): on a Driving tick with no apex boost available, if the
vehicle ends the tick off-road the final speed is
`max(min(speed + ACCELERATION*delta, MAX_SPEED) - OFF_ROAD_FRICTION*delta, 2000)`
(acceleration still applies, then friction with the 2000 floor); if it ends
on-road the speed is just the capped acceleration. -/
theorem claim9_offroad_speed (p : Player) (r : RoadState) (inp : Inputs) (d : Draws)
    (dt ts : ℚ) (hap : r.apexPoints = []) :
    (((update GameState.PLAYING p r inp d dt ts).1).offRoad = true →
      ((update GameState.PLAYING p r inp d dt ts).1).speed =
        frictionSpeed (accelSpeed p.speed (dt * ts)) (dt * ts)) ∧
    (((update GameState.PLAYING p r inp d dt ts).1).offRoad = false →
      ((update GameState.PLAYING p r inp d dt ts).1).speed =
        accelSpeed p.speed (dt * ts)) := by
  have h1 : ((update GameState.PLAYING p r inp d dt ts).1).speed =
      (apexHitStep p.distanceTraveled
        (lerp p.leanVal (targetLeanOf inp) (LEAN_SMOOTHING * (dt * ts)))
        (if ((update GameState.PLAYING p r inp d dt ts).1).offRoad = true
          then frictionSpeed (accelSpeed p.speed (dt * ts)) (dt * ts)
          else accelSpeed p.speed (dt * ts))
        r.apexPoints).2.1 := rfl
  rw [hap] at h1
  simp only [apexHitStep] at h1
  constructor <;> intro hor <;> rw [h1, hor]
  · rw [if_pos rfl]
  · rw [if_neg Bool.false_ne_true]

/-- C9 witness: the amended off-road speed law at the counterexample state
(the tick ends off-road at `x = 1.08`), and the on-road law at the
run-start state. -/
theorem claim9_offroad_witness :
    (((update GameState.PLAYING
        ⟨6/5, 0, 0, 9000, 0, 0, false, ⟨false, 0, 0, 0, 0, 0, 0⟩, 0, [], 1⟩
        ⟨[⟨100, 0, false⟩], []⟩ ⟨false, false⟩ ⟨0, 10, 0, true⟩ (1/10) 1).1).offRoad = true →
      ((update GameState.PLAYING
        ⟨6/5, 0, 0, 9000, 0, 0, false, ⟨false, 0, 0, 0, 0, 0, 0⟩, 0, [], 1⟩
        ⟨[⟨100, 0, false⟩], []⟩ ⟨false, false⟩ ⟨0, 10, 0, true⟩ (1/10) 1).1).speed =
        frictionSpeed (accelSpeed 9000 (1/10 * 1)) (1/10 * 1)) ∧
    (((update GameState.PLAYING
        ⟨6/5, 0, 0, 9000, 0, 0, false, ⟨false, 0, 0, 0, 0, 0, 0⟩, 0, [], 1⟩
        ⟨[⟨100, 0, false⟩], []⟩ ⟨false, false⟩ ⟨0, 10, 0, true⟩ (1/10) 1).1).offRoad = false →
      ((update GameState.PLAYING
        ⟨6/5, 0, 0, 9000, 0, 0, false, ⟨false, 0, 0, 0, 0, 0, 0⟩, 0, [], 1⟩
        ⟨[⟨100, 0, false⟩], []⟩ ⟨false, false⟩ ⟨0, 10, 0, true⟩ (1/10) 1).1).speed =
        accelSpeed 9000 (1/10 * 1)) :=
  claim9_offroad_speed ⟨6/5, 0, 0, 9000, 0, 0, false, ⟨false, 0, 0, 0, 0, 0, 0⟩, 0, [], 1⟩
    ⟨[⟨100, 0, false⟩], []⟩ ⟨false, false⟩ ⟨0, 10, 0, true⟩ (1/10) 1 rfl

lemma scoreStep_count (dist : ℚ) (l : List ApexPoint) :
    (scoreStep dist l).2 = l.countP (fun ap => !ap.scored && decide (ap.z < dist)) := by
  induction l with
  | nil => rfl
  | cons a as ih =>
    simp only [scoreStep, List.countP_cons]
    by_cases h : (!a.scored && decide (a.z < dist)) = true
    · rw [if_pos h]
      dsimp only
      rw [ih, h]
      simp
    · rw [if_neg h]
      dsimp only
      rw [ih]
      rw [Bool.not_eq_true] at h
      rw [h]
      simp

lemma apexHitStep_preserves (dist w s : ℚ) (l : List ApexPoint) :
    ((apexHitStep dist w s l).1).map (fun ap => (ap.z, ap.scored)) =
      l.map (fun ap => (ap.z, ap.scored)) := by
  induction l with
  | nil => rfl
  | cons a as ih =>
    simp only [apexHitStep]
    split_ifs with h1 h2 h3
    · show List.map (fun ap => (ap.z, ap.scored)) ({ a with hit := true } :: as) =
        List.map (fun ap => (ap.z, ap.scored)) (a :: as)
      rw [List.map_cons, List.map_cons]
    · show List.map (fun ap => (ap.z, ap.scored)) ({ a with hit := true } :: as) =
        List.map (fun ap => (ap.z, ap.scored)) (a :: as)
      rw [List.map_cons, List.map_cons]
    · show List.map (fun ap => (ap.z, ap.scored)) (a :: as) =
        List.map (fun ap => (ap.z, ap.scored)) (a :: as)
      rfl
    · show List.map (fun ap => (ap.z, ap.scored)) (a :: (apexHitStep dist w s as).1) =
        List.map (fun ap => (ap.z, ap.scored)) (a :: as)
      rw [List.map_cons, List.map_cons, ih]

lemma countP_of_map_eq {l1 l2 : List ApexPoint}
    (h : l1.map (fun ap => (ap.z, ap.scored)) = l2.map (fun ap => (ap.z, ap.scored)))
    (dist : ℚ) :
    l1.countP (fun ap => !ap.scored && decide (ap.z < dist)) =
      l2.countP (fun ap => !ap.scored && decide (ap.z < dist)) := by
  have hgen : ∀ l : List ApexPoint,
      l.countP (fun ap => !ap.scored && decide (ap.z < dist)) =
        (l.map (fun ap => (ap.z, ap.scored))).countP
          (fun pr => !pr.2 && decide (pr.1 < dist)) := by
    intro l
    rw [List.countP_map]
    rfl
  rw [hgen l1, hgen l2, h]

lemma scoreStep_get (dist : ℚ) (l : List ApexPoint) (i : ℕ) (ap : ApexPoint)
    (h : l[i]? = some ap) :
    ∃ ap', (scoreStep dist l).1[i]? = some ap' ∧ ap'.z = ap.z ∧
      ap'.direction = ap.direction ∧ ap'.hit = ap.hit ∧
      ap'.scored = (ap.scored || decide (ap.z < dist)) := by
  induction l generalizing i with
  | nil => simp at h
  | cons a as ih =>
    cases i with
    | zero =>
      rw [List.getElem?_cons_zero, Option.some_inj] at h
      subst h
      simp only [scoreStep]
      by_cases hcond : (!a.scored && decide (a.z < dist)) = true
      · rw [if_pos hcond]
        rw [Bool.and_eq_true, Bool.not_eq_true'] at hcond
        refine ⟨{ a with scored := true }, by simp, rfl, rfl, rfl, ?_⟩
        rw [hcond.1, hcond.2]
        rfl
      · rw [if_neg hcond]
        refine ⟨a, by simp, rfl, rfl, rfl, ?_⟩
        cases hsc : a.scored with
        | true => simp
        | false =>
          have hdec : decide (a.z < dist) = false := by
            by_contra hd
            rw [Bool.not_eq_false] at hd
            exact hcond (by rw [hsc, hd]; rfl)
          rw [hdec]
          rfl
    | succ k =>
      rw [List.getElem?_cons_succ] at h
      obtain ⟨ap', h1, h2, h3, h4, h5⟩ := ih k h
      simp only [scoreStep]
      by_cases hcond : (!a.scored && decide (a.z < dist)) = true
      · rw [if_pos hcond]
        exact ⟨ap', by rw [List.getElem?_cons_succ]; exact h1, h2, h3, h4, h5⟩
      · rw [if_neg hcond]
        exact ⟨ap', by rw [List.getElem?_cons_succ]; exact h1, h2, h3, h4, h5⟩

/-- C5 (confirmed): on every Driving tick the score increases by exactly the
number of stored apex points that were un-scored with `distanceTraveled`
strictly past their `z` (so it never decreases), and the score sweep flips
`scored` to true exactly for those apexes -- an already scored apex stays
scored and contributes no further increment, and the flip happens only when
the traveled distance strictly exceeds the apex `z`. -/
theorem claim5_score_monotone (p : Player) (r : RoadState) (inp : Inputs) (d : Draws)
    (dt ts : ℚ) :
    (((update GameState.PLAYING p r inp d dt ts).1).score =
      p.score + r.apexPoints.countP
        (fun ap => !ap.scored && decide (ap.z < p.distanceTraveled))) ∧
    p.score ≤ ((update GameState.PLAYING p r inp d dt ts).1).score ∧
    (∀ dist : ℚ, ∀ l : List ApexPoint, ∀ i : ℕ, ∀ ap : ApexPoint, l[i]? = some ap →
      ∃ ap', (scoreStep dist l).1[i]? = some ap' ∧ ap'.z = ap.z ∧
        ap'.direction = ap.direction ∧ ap'.hit = ap.hit ∧
        ap'.scored = (ap.scored || decide (ap.z < dist))) := by
  obtain ⟨w, s, hws⟩ : ∃ w s : ℚ, ((update GameState.PLAYING p r inp d dt ts).1).score =
      p.score + (scoreStep p.distanceTraveled
        (apexHitStep p.distanceTraveled w s r.apexPoints).1).2 := ⟨_, _, rfl⟩
  have heq : ((update GameState.PLAYING p r inp d dt ts).1).score =
      p.score + r.apexPoints.countP
        (fun ap => !ap.scored && decide (ap.z < p.distanceTraveled)) := by
    rw [hws, scoreStep_count]
    exact congrArg (HAdd.hAdd p.score)
      (countP_of_map_eq (apexHitStep_preserves p.distanceTraveled w s r.apexPoints) _)
  exact ⟨heq, heq ▸ Nat.le_add_right p.score _, scoreStep_get⟩

/-- C5 witness: the score law instantiated on a Driving tick whose road
holds one passed, un-scored apex: the score increments by exactly 1. -/
theorem claim5_score_witness :
    (((update GameState.PLAYING ⟨0, 0, 0, 1500, 700, 0, false, ⟨false, 0, 0, 0, 0, 0, 0⟩, 0, [], 1⟩
        ⟨[⟨100, 0, false⟩], [⟨5, 1, false, false⟩]⟩ ⟨false, false⟩ ⟨0, 10, 0, true⟩
        (1/10) 1).1).score =
      0 + ([⟨5, 1, false, false⟩] : List ApexPoint).countP
        (fun ap => !ap.scored && decide (ap.z < 700))) ∧
    0 ≤ ((update GameState.PLAYING ⟨0, 0, 0, 1500, 700, 0, false, ⟨false, 0, 0, 0, 0, 0, 0⟩, 0,
        [], 1⟩ ⟨[⟨100, 0, false⟩], [⟨5, 1, false, false⟩]⟩ ⟨false, false⟩ ⟨0, 10, 0, true⟩
        (1/10) 1).1).score ∧
    (∀ dist : ℚ, ∀ l : List ApexPoint, ∀ i : ℕ, ∀ ap : ApexPoint, l[i]? = some ap →
      ∃ ap', (scoreStep dist l).1[i]? = some ap' ∧ ap'.z = ap.z ∧
        ap'.direction = ap.direction ∧ ap'.hit = ap.hit ∧
        ap'.scored = (ap.scored || decide (ap.z < dist))) :=
  claim5_score_monotone ⟨0, 0, 0, 1500, 700, 0, false, ⟨false, 0, 0, 0, 0, 0, 0⟩, 0, [], 1⟩
    ⟨[⟨100, 0, false⟩], [⟨5, 1, false, false⟩]⟩ ⟨false, false⟩ ⟨0, 10, 0, true⟩ (1/10) 1

/-- C6 (amended): the apex engine scans the stored apex list with
`Array.find`, selecting the FIRST stored un-hit apex within `PERFECT_WINDOW`
of the traveled distance (equal to the nearest whenever at most one is in
the window, as holds for generated tracks); if the lean sign matches that
apex's direction with `|lean| > 0.5`, exactly that apex's `hit` flips to
true, the rating is `PERFECT` iff `|lean| > 0.8` (else `GOOD`) and the speed
becomes `min(speed + 300, MAX_SPEED)`; otherwise the list, speed and rating
are unchanged; and a `hit` flag that is already true is never unset. -/
theorem claim6_apex_first_hit (dist w s : ℚ) (l : List ApexPoint) :
    (l.find? (apexWindow dist) = none → apexHitStep dist w s l = (l, s, none)) ∧
    (∀ ap, l.find? (apexWindow dist) = some ap →
      ¬(mathSign w = mathSign ap.direction ∧ 1/2 < |w|) →
      apexHitStep dist w s l = (l, s, none)) ∧
    (∀ ap, l.find? (apexWindow dist) = some ap →
      (mathSign w = mathSign ap.direction ∧ 1/2 < |w|) →
      ∃ n, l[n]? = some ap ∧
        (∀ m, m < n → ∀ b, l[m]? = some b → apexWindow dist b = false) ∧
        apexHitStep dist w s l =
          (l.set n { ap with hit := true }, min (s + 300) MAX_SPEED,
            some (if 4/5 < |w| then TimingRating.PERFECT else TimingRating.GOOD))) ∧
    (∀ i : ℕ, ∀ b : ApexPoint, l[i]? = some b → b.hit = true →
      ∃ b' : ApexPoint, (apexHitStep dist w s l).1[i]? = some b' ∧ b'.hit = true) := by
  induction l with
  | nil =>
    refine ⟨fun _ => rfl, ?_, ?_, ?_⟩
    · intro ap hap _
      simp at hap
    · intro ap hap _
      simp at hap
    · intro i b hib _
      simp at hib
  | cons a as ih =>
    obtain ⟨ih1, ih2, ih3, ih4⟩ := ih
    by_cases hpa : apexWindow dist a = true
    · have hfind : (a :: as).find? (apexWindow dist) = some a :=
        List.find?_cons_of_pos as hpa
      refine ⟨?_, ?_, ?_, ?_⟩
      · intro hnone
        rw [hfind] at hnone
        exact absurd hnone (by simp)
      · intro ap hap hcond
        rw [hfind, Option.some_inj] at hap
        subst hap
        show apexHitStep dist w s (a :: as) = (a :: as, s, none)
        simp only [apexHitStep]
        rw [if_pos hpa, if_neg hcond]
      · intro ap hap hcond
        rw [hfind, Option.some_inj] at hap
        subst hap
        refine ⟨0, List.getElem?_cons_zero, ?_, ?_⟩
        · intro m hm
          exact absurd hm (Nat.not_lt_zero m)
        · simp only [apexHitStep]
          rw [if_pos hpa, if_pos hcond, List.set_cons_zero]
      · intro i b hib htrue
        by_cases hcond : mathSign w = mathSign a.direction ∧ 1/2 < |w|
        · cases i with
          | zero =>
            rw [List.getElem?_cons_zero, Option.some_inj] at hib
            subst hib
            refine ⟨{ a with hit := true }, ?_, rfl⟩
            show (apexHitStep dist w s (a :: as)).1[0]? = some { a with hit := true }
            simp only [apexHitStep]
            rw [if_pos hpa, if_pos hcond]
            exact List.getElem?_cons_zero
          | succ k =>
            rw [List.getElem?_cons_succ] at hib
            refine ⟨b, ?_, htrue⟩
            simp only [apexHitStep]
            rw [if_pos hpa, if_pos hcond]
            show ({ a with hit := true } :: as)[k + 1]? = some b
            rw [List.getElem?_cons_succ]
            exact hib
        · refine ⟨b, ?_, htrue⟩
          simp only [apexHitStep]
          rw [if_pos hpa, if_neg hcond]
          exact hib
    · have hfind : (a :: as).find? (apexWindow dist) = as.find? (apexWindow dist) :=
        List.find?_cons_of_neg as hpa
      have hstep : apexHitStep dist w s (a :: as) =
          (a :: (apexHitStep dist w s as).1, (apexHitStep dist w s as).2) := by
        simp only [apexHitStep]
        rw [if_neg hpa]
      refine ⟨?_, ?_, ?_, ?_⟩
      · intro hnone
        rw [hfind] at hnone
        rw [hstep, ih1 hnone]
      · intro ap hap hcond
        rw [hfind] at hap
        rw [hstep, ih2 ap hap hcond]
      · intro ap hap hcond
        rw [hfind] at hap
        obtain ⟨n, hn1, hn2, hn3⟩ := ih3 ap hap hcond
        refine ⟨n + 1, ?_, ?_, ?_⟩
        · rw [List.getElem?_cons_succ]
          exact hn1
        · intro m hm b hmb
          cases m with
          | zero =>
            rw [List.getElem?_cons_zero, Option.some_inj] at hmb
            subst hmb
            exact Bool.eq_false_iff.mpr hpa
          | succ k =>
            rw [List.getElem?_cons_succ] at hmb
            exact hn2 k (Nat.lt_of_succ_lt_succ hm) b hmb
        · rw [hstep, hn3, List.set_cons_succ]
      · intro i b hib htrue
        cases i with
        | zero =>
          rw [List.getElem?_cons_zero, Option.some_inj] at hib
          subst hib
          refine ⟨a, ?_, htrue⟩
          rw [hstep]
          exact List.getElem?_cons_zero
        | succ k =>
          rw [List.getElem?_cons_succ] at hib
          obtain ⟨b', hb1, hb2⟩ := ih4 k b hib htrue
          refine ⟨b', ?_, hb2⟩
          rw [hstep]
          show (a :: (apexHitStep dist w s as).1)[k + 1]? = some b'
          rw [List.getElem?_cons_succ]
          exact hb1

/-- C6 (counterexample): with apexes stored at z = 0 and z = 760 and the
vehicle at distance 700, both are within `PERFECT_WINDOW = 800`, the apex at
760 is strictly nearer, and the lean (0.9, matching both directions) passes
the hit conditions -- yet `Array.find` marks the FIRST stored apex (z = 0)
and leaves the nearest one un-hit, contradicting the "nearest apex" claim. -/
theorem claim6_counterexample :
    |(760 : ℚ) - 700| < |(0 : ℚ) - 700| ∧
    |(760 : ℚ) - 700| < PERFECT_WINDOW ∧
    mathSign (9/10) = mathSign (1 : ℚ) ∧ (1/2 : ℚ) < |(9/10 : ℚ)| ∧
    (apexHitStep 700 (9/10) 5000 [⟨0, 1, false, false⟩, ⟨760, 1, false, false⟩]).1 =
      [⟨0, 1, true, false⟩, ⟨760, 1, false, false⟩] := by
  have h1 : |(760 : ℚ) - 700| = 60 := by
    rw [abs_of_nonneg] <;> norm_num
  have h2 : |(0 : ℚ) - 700| = 700 := by
    rw [abs_of_nonpos] <;> norm_num
  have h3 : |(9/10 : ℚ)| = 9/10 := by
    rw [abs_of_nonneg] <;> norm_num
  have hsign : mathSign (9/10) = mathSign (1 : ℚ) := by
    rw [mathSign, mathSign, if_pos (by norm_num : (0:ℚ) < 9/10), if_pos (by norm_num : (0:ℚ) < 1)]
  refine ⟨by rw [h1, h2]; norm_num, by rw [h1, PERFECT_WINDOW]; norm_num, hsign,
    by rw [h3]; norm_num, ?_⟩
  have hw : apexWindow 700 (⟨0, 1, false, false⟩ : ApexPoint) = true := by
    show (!false && decide (|(0 : ℚ) - 700| < PERFECT_WINDOW)) = true
    rw [decide_eq_true (show |(0 : ℚ) - 700| < PERFECT_WINDOW by
      rw [h2, PERFECT_WINDOW]; norm_num)]
    rfl
  have hc : mathSign (9/10) = mathSign ((⟨0, 1, false, false⟩ : ApexPoint).direction) ∧
      (1/2 : ℚ) < |(9/10 : ℚ)| := ⟨hsign, by rw [h3]; norm_num⟩
  show (apexHitStep 700 (9/10) 5000
    (⟨0, 1, false, false⟩ :: [⟨760, 1, false, false⟩])).1 = _
  simp only [apexHitStep]
  rw [if_pos hw, if_pos hc]

/-- C6 witness: a single in-window apex at the traveled distance with a full
right lean is found first (hence nearest), marked hit, rated by the lean
magnitude, and the speed boost applies. -/
theorem claim6_apex_witness :
    ∃ n, ([⟨(700 : ℚ), 1, false, false⟩] : List ApexPoint)[n]? =
        some ⟨700, 1, false, false⟩ ∧
      (∀ m, m < n → ∀ b, ([⟨(700 : ℚ), 1, false, false⟩] : List ApexPoint)[m]? = some b →
        apexWindow 700 b = false) ∧
      apexHitStep 700 1 1000 [⟨700, 1, false, false⟩] =
        (([⟨(700 : ℚ), 1, false, false⟩] : List ApexPoint).set n ⟨700, 1, true, false⟩,
          min (1000 + 300) MAX_SPEED,
          some (if 4/5 < |(1 : ℚ)| then TimingRating.PERFECT else TimingRating.GOOD)) :=
  (claim6_apex_first_hit 700 1 1000 [⟨700, 1, false, false⟩]).2.2.1 ⟨700, 1, false, false⟩
    (List.find?_cons_of_pos _ (by
      show (!false && decide (|(700 : ℚ) - 700| < PERFECT_WINDOW)) = true
      rw [decide_eq_true (show |(700 : ℚ) - 700| < PERFECT_WINDOW by
        norm_num [PERFECT_WINDOW])]
      rfl))
    ⟨rfl, by rw [abs_one]; norm_num⟩

lemma apexHitStep_speed_cases (dist w s : ℚ) (l : List ApexPoint) :
    (apexHitStep dist w s l).2.1 = s ∨
      (apexHitStep dist w s l).2.1 = min (s + 300) MAX_SPEED := by
  induction l with
  | nil => exact Or.inl rfl
  | cons a as ih =>
    simp only [apexHitStep]
    by_cases h1 : apexWindow dist a = true
    · rw [if_pos h1]
      by_cases h2 : mathSign w = mathSign a.direction ∧ 1/2 < |w|
      · rw [if_pos h2]
        exact Or.inr rfl
      · rw [if_neg h2]
        exact Or.inl rfl
    · rw [if_neg h1]
      exact ih

/-- C10 (confirmed, implicit invariant): a run starts at
`speed = BASE_SPEED = 1500`, and every Driving tick with nonnegative time
delta keeps the speed within `[BASE_SPEED, MAX_SPEED]`: acceleration and the
apex boost are both capped at `MAX_SPEED = 9500`, and the off-road friction
floor of 2000 never drops the speed below `BASE_SPEED` -- so the speed stays
strictly positive while driving and `distanceTraveled` strictly increases on
every tick with positive scaled delta. -/
theorem claim10_speed_invariant (p : Player) (r : RoadState) (inp : Inputs) (d : Draws)
    (dt ts : ℚ) (h1 : BASE_SPEED ≤ p.speed) (h2 : p.speed ≤ MAX_SPEED)
    (h3 : 0 ≤ dt) (h4 : 0 ≤ ts) :
    (initPlayer 0).speed = BASE_SPEED ∧
    BASE_SPEED ≤ ((update GameState.PLAYING p r inp d dt ts).1).speed ∧
    ((update GameState.PLAYING p r inp d dt ts).1).speed ≤ MAX_SPEED ∧
    (0 < dt * ts →
      p.distanceTraveled < ((update GameState.PLAYING p r inp d dt ts).1).distanceTraveled) := by
  have hd0 : 0 ≤ dt * ts := mul_nonneg h3 h4
  obtain ⟨w, hsp⟩ : ∃ w : ℚ, ((update GameState.PLAYING p r inp d dt ts).1).speed =
      (apexHitStep p.distanceTraveled w
        (if ((update GameState.PLAYING p r inp d dt ts).1).offRoad = true
          then frictionSpeed (accelSpeed p.speed (dt * ts)) (dt * ts)
          else accelSpeed p.speed (dt * ts))
        r.apexPoints).2.1 := ⟨_, rfl⟩
  have hacc_lo : BASE_SPEED ≤ accelSpeed p.speed (dt * ts) := by
    rw [accelSpeed]
    refine le_min ?_ (by rw [BASE_SPEED, MAX_SPEED]; norm_num)
    have hm := mul_nonneg (show (0:ℚ) ≤ ACCELERATION by rw [ACCELERATION]; norm_num) hd0
    linarith
  have hacc_hi : accelSpeed p.speed (dt * ts) ≤ MAX_SPEED := min_le_right _ _
  have hfr_lo : BASE_SPEED ≤ frictionSpeed (accelSpeed p.speed (dt * ts)) (dt * ts) := by
    rw [frictionSpeed]
    refine le_trans ?_ (le_max_right _ _)
    rw [BASE_SPEED]
    norm_num
  have hfr_hi : frictionSpeed (accelSpeed p.speed (dt * ts)) (dt * ts) ≤ MAX_SPEED := by
    rw [frictionSpeed]
    refine max_le ?_ (by rw [MAX_SPEED]; norm_num)
    have hm := mul_nonneg (show (0:ℚ) ≤ OFF_ROAD_FRICTION by rw [OFF_ROAD_FRICTION]; norm_num) hd0
    linarith
  have hs2_lo : BASE_SPEED ≤
      (if ((update GameState.PLAYING p r inp d dt ts).1).offRoad = true
        then frictionSpeed (accelSpeed p.speed (dt * ts)) (dt * ts)
        else accelSpeed p.speed (dt * ts)) := by
    split_ifs
    · exact hfr_lo
    · exact hacc_lo
  have hs2_hi :
      (if ((update GameState.PLAYING p r inp d dt ts).1).offRoad = true
        then frictionSpeed (accelSpeed p.speed (dt * ts)) (dt * ts)
        else accelSpeed p.speed (dt * ts)) ≤ MAX_SPEED := by
    split_ifs
    · exact hfr_hi
    · exact hacc_hi
  have hlo : BASE_SPEED ≤ ((update GameState.PLAYING p r inp d dt ts).1).speed := by
    rw [hsp]
    rcases apexHitStep_speed_cases p.distanceTraveled w _ r.apexPoints with hc | hc <;> rw [hc]
    · exact hs2_lo
    · refine le_min ?_ (by rw [BASE_SPEED, MAX_SPEED]; norm_num)
      linarith
  have hhi : ((update GameState.PLAYING p r inp d dt ts).1).speed ≤ MAX_SPEED := by
    rw [hsp]
    rcases apexHitStep_speed_cases p.distanceTraveled w _ r.apexPoints with hc | hc <;> rw [hc]
    · exact hs2_hi
    · exact min_le_right _ _
  refine ⟨rfl, hlo, hhi, ?_⟩
  intro hpos
  have hdist : ((update GameState.PLAYING p r inp d dt ts).1).distanceTraveled =
      p.distanceTraveled + ((update GameState.PLAYING p r inp d dt ts).1).speed * (dt * ts) :=
    rfl
  rw [hdist]
  have hspos : 0 < ((update GameState.PLAYING p r inp d dt ts).1).speed :=
    lt_of_lt_of_le (by rw [BASE_SPEED]; norm_num) hlo
  have := mul_pos hspos hpos
  linarith

/-- C10 witness: the invariant at the run-start state with `dt = 0.1`. -/
theorem claim10_speed_witness :
    (initPlayer 0).speed = BASE_SPEED ∧
    BASE_SPEED ≤ ((update GameState.PLAYING (initPlayer 0) ⟨[], []⟩ ⟨false, false⟩
      ⟨0, 10, 0, true⟩ (1/10) 1).1).speed ∧
    ((update GameState.PLAYING (initPlayer 0) ⟨[], []⟩ ⟨false, false⟩
      ⟨0, 10, 0, true⟩ (1/10) 1).1).speed ≤ MAX_SPEED ∧
    (0 < (1/10 : ℚ) * 1 →
      (initPlayer 0).distanceTraveled <
        ((update GameState.PLAYING (initPlayer 0) ⟨[], []⟩ ⟨false, false⟩
          ⟨0, 10, 0, true⟩ (1/10) 1).1).distanceTraveled) :=
  claim10_speed_invariant (initPlayer 0) ⟨[], []⟩ ⟨false, false⟩ ⟨0, 10, 0, true⟩ (1/10) 1
    (le_of_eq rfl)
    (by show BASE_SPEED ≤ MAX_SPEED; rw [BASE_SPEED, MAX_SPEED]; norm_num)
    (by norm_num) (by norm_num)

end ApexRider
